import Mathlib

/-!
Verification of the PixelCNN graph-construction core of the blockvae
repository (`src/layers.py`) against its natural-language specification.

The embedding is shallow: a Keras feature map is modelled as a `Tensor`
(spatial/channel dimensions plus a total value function `ℕ → ℕ → ℕ → ℚ`
indexed by row, column and channel; the batch dimension is elided since
every modelled operation acts batch-pointwise).  Convolutions carry
arbitrary rational weights, so every theorem quantifies over the weights.
The `tanh` and `sigmoid` nonlinearities are arbitrary function parameters
(fields of `Params`); `relu` is `max · 0`.
-/

namespace BlockVae

/-- A feature map: height, width, channel count, and a value function
`row → col → channel → ℚ`.  Values outside the valid index range are
irrelevant to every modelled operation (padding guards all reads). -/
structure Tensor where
  H : ℕ
  W : ℕ
  C : ℕ
  val : ℕ → ℕ → ℕ → ℚ

/-- Weights of a 2-D convolution: `w i j cin cout` and bias `b cout`. -/
structure ConvW where
  w : ℕ → ℕ → ℕ → ℕ → ℚ
  b : ℕ → ℚ

/-- Weights of a dense (fully connected) layer: `w k o` and bias `b o`. -/
structure DenseW where
  w : ℕ → ℕ → ℚ
  b : ℕ → ℚ

/-- `keras.layers.ZeroPadding2D(padding=((pt, pb), (pl, pr)))`: pads `pt`
rows of zeros above, `pb` below, `pl` columns left, `pr` right. -/
def zeroPadding2D (pt pb pl pr : ℕ) (x : Tensor) : Tensor :=
  { H := x.H + pt + pb
    W := x.W + pl + pr
    C := x.C
    val := fun r c ch =>
      if pt ≤ r ∧ r < pt + x.H ∧ pl ≤ c ∧ c < pl + x.W then
        x.val (r - pt) (c - pl) ch
      else 0 }

/-- `keras.layers.Conv2D(filters, (kh, kw), padding=valid)`: a valid
cross-correlation with `filters` output channels. -/
def conv2dValid (filters kh kw : ℕ) (p : ConvW) (x : Tensor) : Tensor :=
  { H := x.H + 1 - kh
    W := x.W + 1 - kw
    C := filters
    val := fun r c o =>
      p.b o + ∑ i ∈ Finset.range kh, ∑ j ∈ Finset.range kw,
        ∑ ch ∈ Finset.range x.C, p.w i j ch o * x.val (r + i) (c + j) ch }

/-- The `_crop_right` static method of both activation-unit classes:
`x[:, :, :W-1, :]` drops the last column (values at surviving indices are
untouched). -/
def cropRightT (x : Tensor) : Tensor :=
  { x with W := x.W - 1 }

/-- Keras `Add()([x, y])`: elementwise sum (shapes agree in every use). -/
def addT (x y : Tensor) : Tensor :=
  { x with val := fun r c ch => x.val r c ch + y.val r c ch }

/-- Keras `Multiply()([x, y])`: elementwise product. -/
def multiplyT (x y : Tensor) : Tensor :=
  { x with val := fun r c ch => x.val r c ch * y.val r c ch }

/-- Apply a scalar function to every entry. -/
def mapVal (f : ℚ → ℚ) (x : Tensor) : Tensor :=
  { x with val := fun r c ch => f (x.val r c ch) }

/-- The channel slice `x[:, :, :, :nb]` (the tanh/"write" half). -/
def sliceFirst (nb : ℕ) (x : Tensor) : Tensor :=
  { x with C := min nb x.C }

/-- The channel slice `x[:, :, :, nb:]` (the sigmoid/"gate" half). -/
def sliceFrom (nb : ℕ) (x : Tensor) : Tensor :=
  { x with C := x.C - nb, val := fun r c ch => x.val r c (nb + ch) }

/-- ReLU on a scalar. -/
def relu (q : ℚ) : ℚ := max q 0

/-- Keras `Activation('relu')`. -/
def reluT (x : Tensor) : Tensor := mapVal relu x

/-- A dense layer of `units` outputs applied to a latent vector of
dimension `inDim`.  (`units` is the declared layer width; the value at
output `o` is `b o + ∑ k < inDim, w k o * h k`.) -/
def dense (units inDim : ℕ) (p : DenseW) (h : ℕ → ℚ) : ℕ → ℚ :=
  fun _o => p.b _o + ∑ k ∈ Finset.range inDim, p.w k _o * h k

/-- Broadcast-add a per-channel vector (the reshaped `(1,1,C)` latent
projection) over every spatial position: the merge
`Lambda(lambda x: x[0]+x[1])([xW, hV])`. -/
def broadcastAdd (x : Tensor) (hv : ℕ → ℚ) : Tensor :=
  { x with val := fun r c ch => x.val r c ch + hv ch }

/-- `GatedCNN.__call__` (src/layers.py lines 51-81), value level.  In
order: crop-right, merge the vertical feed map, merge the projected
latent vector (dense layer of width `2*nb_filters`), then the gate:
`tanh` of channels `[:nb]` times `sigmoid` of channels `[nb:]`. -/
def gatedCNNCall (tanh sigm : ℚ → ℚ) (nbFilters : ℕ) (vMap : Option Tensor)
    (latent : Option (ℕ → ℚ)) (latentDim : ℕ) (dp : DenseW) (cropRight : Bool)
    (xW : Tensor) : Tensor :=
  let xW := if cropRight then cropRightT xW else xW
  let xW := match vMap with
    | some v => addT xW v
    | none => xW
  let xW := match latent with
    | some h => broadcastAdd xW (dense (2 * nbFilters) latentDim dp h)
    | none => xW
  let xWf := mapVal tanh (sliceFirst nbFilters xW)
  let xWg := mapVal sigm (sliceFrom nbFilters xW)
  multiplyT xWf xWg

/-- `ReLUCNN.__call__` (src/layers.py lines 114-134), value level.  Same
crop / vertical-feed / latent merges (dense width `nb_filters`), then a
plain ReLU. -/
def reLUCNNCall (nbFilters : ℕ) (vMap : Option Tensor)
    (latent : Option (ℕ → ℚ)) (latentDim : ℕ) (dp : DenseW) (cropRight : Bool)
    (xW : Tensor) : Tensor :=
  let xW := if cropRight then cropRightT xW else xW
  let xW := match vMap with
    | some v => addT xW v
    | none => xW
  let xW := match latent with
    | some h => broadcastAdd xW (dense nbFilters latentDim dp h)
    | none => xW
  reluT xW

/-- The stack tag computed at the top of both `__call__` methods: `'v'`
for `'vertical'`, `'h'` for `'horizontal'`, and *unbound* otherwise (the
`if/elif` chain assigns nothing, so the first later use of `stack_tag`
raises `UnboundLocalError`). -/
def stackTagOf : String → Option String
  | "vertical" => some "v"
  | "horizontal" => some "h"
  | _ => none

/-- `PixelCNN._masked_conv` (src/layers.py lines 199-211), value level.
Vertical stack: pad `(kh//2, 0)` rows and `(kw//2, kw//2)` columns, then a
valid `(kh//2+1, kw)` convolution.  Horizontal stack: pad `(kw//2, 0)`
columns, then a valid `(1, kw//2)` (mask A) or `(1, kw//2+1)` (mask B)
convolution.  Channel count is `2*nb_filters` when gated else
`nb_filters`.  Any other stack name leaves `res` unbound: `none`. -/
def maskedConvV (myNb : ℕ) (fs : ℕ × ℕ) (p : ConvW) (x : Tensor) : Tensor :=
  conv2dValid myNb (fs.1 / 2 + 1) fs.2 p
    (zeroPadding2D (fs.1 / 2) 0 (fs.2 / 2) (fs.2 / 2) x)

/-- Horizontal-stack mask-A branch of `_masked_conv`. -/
def maskedConvHA (myNb : ℕ) (fs : ℕ × ℕ) (p : ConvW) (x : Tensor) : Tensor :=
  conv2dValid myNb 1 (fs.2 / 2) p (zeroPadding2D 0 0 (fs.2 / 2) 0 x)

/-- Horizontal-stack mask-B branch of `_masked_conv`. -/
def maskedConvHB (myNb : ℕ) (fs : ℕ × ℕ) (p : ConvW) (x : Tensor) : Tensor :=
  conv2dValid myNb 1 (fs.2 / 2 + 1) p (zeroPadding2D 0 0 (fs.2 / 2) 0 x)

/-- The full `_masked_conv` dispatcher on the stack name. -/
def maskedConv (gated : Bool) (nbFilters : ℕ) (fs : ℕ × ℕ)
    (stackName maskType : String) (p : ConvW) (x : Tensor) : Option Tensor :=
  let myNb := if gated then 2 * nbFilters else nbFilters
  if stackName = "vertical" then
    some (maskedConvV myNb fs p x)
  else if stackName = "horizontal" then
    if maskType = "A" then some (maskedConvHA myNb fs p x)
    else some (maskedConvHB myNb fs p x)
  else none

/-- The pad/kernel/filter metadata of the convolution `_masked_conv`
builds: `(padTop, padBottom, padLeft, padRight)`, kernel `(kerH, kerW)`,
and output channel count. -/
structure ConvPlan where
  padTop : ℕ
  padBottom : ℕ
  padLeft : ℕ
  padRight : ℕ
  kerH : ℕ
  kerW : ℕ
  filters : ℕ
deriving DecidableEq

/-- `_masked_conv` as construction metadata (read off the same branches
as `maskedConv`). -/
def maskedConvPlan (gated : Bool) (nbFilters : ℕ) (fs : ℕ × ℕ)
    (stackName maskType : String) : Option ConvPlan :=
  let myNb := if gated then 2 * nbFilters else nbFilters
  if stackName = "vertical" then
    some ⟨fs.1 / 2, 0, fs.2 / 2, fs.2 / 2, fs.1 / 2 + 1, fs.2, myNb⟩
  else if stackName = "horizontal" then
    if maskType = "A" then some ⟨0, 0, fs.2 / 2, 0, 1, fs.2 / 2, myNb⟩
    else some ⟨0, 0, fs.2 / 2, 0, 1, fs.2 / 2 + 1, myNb⟩
  else none

/-- Run a `ConvPlan`: pad then valid-convolve. -/
def applyPlan (pl : ConvPlan) (p : ConvW) (x : Tensor) : Tensor :=
  conv2dValid pl.filters pl.kerH pl.kerW p
    (zeroPadding2D pl.padTop pl.padBottom pl.padLeft pl.padRight x)

/-- `PixelCNN._shift_down` (src/layers.py lines 214-219): pad one zero row
on top, then slice back to the original height (`x[:, :H, :, :]`). -/
def shiftDown (x : Tensor) : Tensor :=
  let padded := zeroPadding2D 1 0 0 0 x
  { padded with H := x.H }

/-- `PixelCNN._feed_v_map` (src/layers.py lines 221-226): shift down, then
a 1×1 convolution to `2*nb_filters` (gated) or `nb_filters` channels. -/
def feedVMap (gated : Bool) (nbFilters : ℕ) (p : ConvW) (x : Tensor) : Tensor :=
  let x := shiftDown x
  let myNb := if gated then 2 * nbFilters else nbFilters
  conv2dValid myNb 1 1 p x

/-- Model configuration: the constructor arguments of `PixelCNN` that
shape the graph. -/
structure Config where
  inputH : ℕ
  inputW : ℕ
  nbChannels : ℕ
  conditional : Bool
  latentDim : ℕ
  nbLayers : ℕ
  nbFilters : ℕ
  gated : Bool
  fs1 : ℕ × ℕ
  fs : ℕ × ℕ

/-- All trainable parameters of the built graph, indexed by layer. -/
structure Params where
  vConv : ℕ → ConvW
  vFeed : ℕ → ConvW
  hConv : ℕ → ConvW
  h1x1 : ℕ → ConvW
  vDense : ℕ → DenseW
  hDense : ℕ → DenseW
  pen : ℕ → ConvW
  outW : ConvW
  tanh : ℚ → ℚ
  sigm : ℚ → ℚ

/-- `2*self.nb_filters if self.gated else self.nb_filters`. -/
def myNbF (cfg : Config) : ℕ :=
  if cfg.gated then 2 * cfg.nbFilters else cfg.nbFilters

/-- The `if self.gated: GatedCNN(...) else: ReLUCNN(...)` dispatch of
`_build_layers`. -/
def activationUnit (p : Params) (gated : Bool) (nbFilters : ℕ)
    (vMap : Option Tensor) (latent : Option (ℕ → ℚ)) (latentDim : ℕ)
    (dp : DenseW) (cropRight : Bool) (xW : Tensor) : Tensor :=
  if gated then
    gatedCNNCall p.tanh p.sigm nbFilters vMap latent latentDim dp cropRight xW
  else
    reLUCNNCall nbFilters vMap latent latentDim dp cropRight xW

/-- Layer 0: `v_masked_map = _masked_conv(x, filter_size_1st, 'vertical', 0)`. -/
def layer0VMasked (cfg : Config) (p : Params) (x : Tensor) : Tensor :=
  maskedConvV (myNbF cfg) cfg.fs1 (p.vConv 0) x

/-- Layer 0: `v_feed_map = _feed_v_map(v_masked_map, 0)` — note the input
is the masked-conv output, not the activation output. -/
def layer0VFeed (cfg : Config) (p : Params) (x : Tensor) : Tensor :=
  feedVMap cfg.gated cfg.nbFilters (p.vFeed 0) (layer0VMasked cfg p x)

/-- Layer 0: `v_stack_out = {Gated,ReLU}CNN(nb, 'vertical', v_map=None, h)(v_masked_map, 0)`. -/
def layer0VStack (cfg : Config) (p : Params) (x : Tensor)
    (lat : Option (ℕ → ℚ)) : Tensor :=
  activationUnit p cfg.gated cfg.nbFilters none lat cfg.latentDim
    (p.vDense 0) false (layer0VMasked cfg p x)

/-- Layer 0: `h_masked_map = _masked_conv(x, filter_size_1st, 'horizontal', 0, 'A')`. -/
def layer0HMasked (cfg : Config) (p : Params) (x : Tensor) : Tensor :=
  maskedConvHA (myNbF cfg) cfg.fs1 (p.hConv 0) x

/-- Layer 0 horizontal output: activation unit with `crop_right=True` and
the vertical feed map, then the 1×1 projection `h_1x1_conv_0`.  No
residual add at layer 0. -/
def layer0HStack (cfg : Config) (p : Params) (x : Tensor)
    (lat : Option (ℕ → ℚ)) : Tensor :=
  conv2dValid cfg.nbFilters 1 1 (p.h1x1 0)
    (activationUnit p cfg.gated cfg.nbFilters (some (layer0VFeed cfg p x))
      lat cfg.latentDim (p.hDense 0) true (layer0HMasked cfg p x))

/-- Loop body, vertical masked conv: `_masked_conv(v_stack_out, filter_size, 'vertical', i)`. -/
def stepVMasked (cfg : Config) (p : Params) (i : ℕ) (vPrev : Tensor) : Tensor :=
  maskedConvV (myNbF cfg) cfg.fs (p.vConv i) vPrev

/-- Loop body, vertical feed: `_feed_v_map(v_masked_map, i)` — again from
the masked-conv output. -/
def stepVFeed (cfg : Config) (p : Params) (i : ℕ) (vPrev : Tensor) : Tensor :=
  feedVMap cfg.gated cfg.nbFilters (p.vFeed i) (stepVMasked cfg p i vPrev)

/-- Loop body, vertical activation output. -/
def stepVStack (cfg : Config) (p : Params) (lat : Option (ℕ → ℚ)) (i : ℕ)
    (vPrev : Tensor) : Tensor :=
  activationUnit p cfg.gated cfg.nbFilters none lat cfg.latentDim
    (p.vDense i) false (stepVMasked cfg p i vPrev)

/-- Loop body, horizontal masked conv (mask B) from the previous
horizontal output. -/
def stepHMasked (cfg : Config) (p : Params) (i : ℕ) (hPrev : Tensor) : Tensor :=
  maskedConvHB (myNbF cfg) cfg.fs (p.hConv i) hPrev

/-- Loop body, horizontal path before the residual add: activation unit
(with this layer's vertical feed) then the 1×1 projection. -/
def stepHProj (cfg : Config) (p : Params) (lat : Option (ℕ → ℚ)) (i : ℕ)
    (vPrev hPrev : Tensor) : Tensor :=
  conv2dValid cfg.nbFilters 1 1 (p.h1x1 i)
    (activationUnit p cfg.gated cfg.nbFilters (some (stepVFeed cfg p i vPrev))
      lat cfg.latentDim (p.hDense i) false (stepHMasked cfg p i hPrev))

/-- One iteration of the `for i in range(1, nb_pixelcnn_layers)` loop of
`_build_layers` (src/layers.py lines 254-271), mapping the previous
`(v_stack_out, h_stack_out)` to the new pair; the horizontal output gets
the residual add with the previous horizontal output. -/
def layerStep (cfg : Config) (p : Params) (lat : Option (ℕ → ℚ)) (i : ℕ)
    (st : Tensor × Tensor) : Tensor × Tensor :=
  (stepVStack cfg p lat i st.1,
   addT (stepHProj cfg p lat i st.1 st.2) st.2)

/-- Run the loop for layers `i, i+1, …, i+k-1`. -/
def loopFrom (cfg : Config) (p : Params) (lat : Option (ℕ → ℚ)) :
    ℕ → ℕ → Tensor × Tensor → Tensor × Tensor
  | _, 0, st => st
  | i, k + 1, st => loopFrom cfg p lat (i + 1) k (layerStep cfg p lat i st)

/-- The head of `_build_layers`: two 1×1 ReLU convolutions
(`penultimate_convs0/1`) then the final 1×1 projection to
`nb_channels`, with no activation. -/
def headOut (cfg : Config) (p : Params) (t : Tensor) : Tensor :=
  let t := reluT (conv2dValid cfg.nbFilters 1 1 (p.pen 0) t)
  let t := reluT (conv2dValid cfg.nbFilters 1 1 (p.pen 1) t)
  conv2dValid cfg.nbChannels 1 1 p.outW t

/-- `PixelCNN._build_layers` (src/layers.py lines 229-282): layer 0, the
residual loop for layers `1..N-1`, then the head. -/
def buildLayers (cfg : Config) (p : Params) (x : Tensor)
    (lat : Option (ℕ → ℚ)) : Tensor :=
  let st0 := (layer0VStack cfg p x lat, layer0HStack cfg p x lat)
  let stN := loopFrom cfg p lat 1 (cfg.nbLayers - 1) st0
  headOut cfg p stN.2

/-- The `Input(shape=(H, W, C))` placeholder of `build_model`, seeded with
an image value function. -/
def inputTensor (cfg : Config) (img : ℕ → ℕ → ℕ → ℚ) : Tensor :=
  ⟨cfg.inputH, cfg.inputW, cfg.nbChannels, img⟩

/-- `PixelCNN.build_model` (src/layers.py lines 285-301): builds the graph
on an input image, passing the latent-vector input exactly when
`conditional` is set. -/
def buildModel (cfg : Config) (p : Params) (img : ℕ → ℕ → ℕ → ℚ)
    (lat : ℕ → ℚ) : Tensor :=
  if cfg.conditional then
    buildLayers cfg p (inputTensor cfg img) (some lat)
  else
    buildLayers cfg p (inputTensor cfg img) none

/-- The additive contribution of an optional vertical feed map at a
position: its value when present, 0 when absent. -/
def optVal (vm : Option Tensor) (r c ch : ℕ) : ℚ :=
  match vm with
  | some v => v.val r c ch
  | none => 0

/-- The additive contribution of an optional latent vector at a channel:
its dense projection when present, 0 when absent. -/
def optLat (lat : Option (ℕ → ℚ)) (units ld : ℕ) (dp : DenseW) (ch : ℕ) : ℚ :=
  match lat with
  | some h => dense units ld dp h ch
  | none => 0

/-- Raster order: `(r', c')` is not after `(r, c)` when it is in an
earlier row, or in the same row at a column `≤ c`. -/
def notAfter (r' c' r c : ℕ) : Prop :=
  r' < r ∨ (r' = r ∧ c' ≤ c)

instance (r' c' r c : ℕ) : Decidable (notAfter r' c' r c) := by
  unfold notAfter; infer_instance

/-- Agreement of two feature maps at every channel of every position
satisfying `P`. -/
def valsEqOn (P : ℕ → ℕ → Prop) (x y : Tensor) : Prop :=
  ∀ r c ch, P r c → x.val r c ch = y.val r c ch

/-- Equal height, width and channel count. -/
def dimsEq (x y : Tensor) : Prop :=
  x.H = y.H ∧ x.W = y.W ∧ x.C = y.C

/-- Invariant relating the `(v_stack_out, h_stack_out)` states of two
runs of `_build_layers` on inputs that agree at every position not after
the target `(r0, c0)`: the vertical stream agrees on all rows `< r0`,
the horizontal stream agrees at every position not after `(r0, c0)`. -/
def stInv (r0 c0 : ℕ) (st st' : Tensor × Tensor) : Prop :=
  dimsEq st.1 st'.1 ∧ dimsEq st.2 st'.2 ∧
  valsEqOn (fun r _ => r < r0) st.1 st'.1 ∧
  valsEqOn (fun r' c' => notAfter r' c' r0 c0) st.2 st'.2

/-! ### Construction-time behaviour models

The remaining definitions model the parts of `layers.py` whose claims are
about construction-time effects rather than tensor values: which Keras
graph nodes a call builds before failing, which filesystem operations
`__init__` performs, and Python's attribute lookup for
`PixelCNN.predict`. -/

/-- The Keras graph nodes the modelled calls can construct. -/
inductive GraphOp
  | lambdaCrop
  | addMerge
  | denseLatent
  | reshapeLatent
  | mergeLatent
  | sliceF
  | sliceG
  | tanhOp
  | sigmoidOp
  | multiplyOp
  | reluAct
  | zeroPadOp
  | convOp
deriving DecidableEq

/-- `GatedCNN.__call__` as a trace: the list of graph ops built, and
whether the call completes.  With an unrecognized stack name the
`if/elif` chain leaves `stack_tag` unbound, the crop and vertical-merge
ops (which use no stack tag in their names) are still built, and the
first name concatenation that reads `stack_tag` — the latent `Dense`
name when a latent is present, else the `Wf` slice `Lambda` name —
raises `UnboundLocalError`. -/
def gatedCallTrace (stackName : String) (cropRight hasVMap hasLatent : Bool) :
    List GraphOp × Bool :=
  let ops := (if cropRight then [GraphOp.lambdaCrop] else []) ++
    (if hasVMap then [GraphOp.addMerge] else [])
  match stackTagOf stackName with
  | none => (ops, false)
  | some _ =>
    let ops := ops ++ (if hasLatent then
      [GraphOp.denseLatent, GraphOp.reshapeLatent, GraphOp.mergeLatent] else [])
    (ops ++ [GraphOp.sliceF, GraphOp.sliceG, GraphOp.tanhOp,
      GraphOp.sigmoidOp, GraphOp.multiplyOp], true)

/-- `ReLUCNN.__call__` as a trace; the failure point with an unrecognized
stack name is the `Activation('relu', name=stack_tag+...)` call (or the
latent `Dense` name when a latent is present). -/
def reluCallTrace (stackName : String) (cropRight hasVMap hasLatent : Bool) :
    List GraphOp × Bool :=
  let ops := (if cropRight then [GraphOp.lambdaCrop] else []) ++
    (if hasVMap then [GraphOp.addMerge] else [])
  match stackTagOf stackName with
  | none => (ops, false)
  | some _ =>
    let ops := ops ++ (if hasLatent then
      [GraphOp.denseLatent, GraphOp.reshapeLatent, GraphOp.mergeLatent] else [])
    (ops ++ [GraphOp.reluAct], true)

/-- `PixelCNN._masked_conv` as a trace: with an unrecognized stack name
neither branch runs and the trailing `return res` raises
`UnboundLocalError` before any op is built. -/
def maskedConvTrace (stackName maskType : String) : List GraphOp × Bool :=
  if stackName = "vertical" then ([GraphOp.zeroPadOp, GraphOp.convOp], true)
  else if stackName = "horizontal" then
    ([GraphOp.zeroPadOp, GraphOp.convOp], true)
  else ([], false)

/-- Filesystem operations (the only two `PixelCNN.__init__` can issue). -/
inductive FsOp
  | rmtree (path : String)
  | makedirs (path : String)
deriving DecidableEq

/-- The hard-coded TensorBoard log directory of `__init__`. -/
def tensorboardDir : String := "./block_cnn_logs"

/-- The filesystem effects of `PixelCNN.__init__` (src/layers.py lines
188-191), as a function of whether `./block_cnn_logs` already exists:
`shutil.rmtree` when it does, then `os.makedirs` unconditionally. -/
def initFsOps (dirExists : Bool) : List FsOp :=
  if dirExists then [FsOp.rmtree tensorboardDir, FsOp.makedirs tensorboardDir]
  else [FsOp.makedirs tensorboardDir]

/-- The filesystem effects of `_build_layers` and `build_model`: the
bodies (src/layers.py lines 229-301) contain no filesystem calls. -/
def buildGraphFsOps : List FsOp := []

/-- The names bound in the class body of `PixelCNN` — Python resolves
`PixelCNN.<attr>` against these (plus `object`'s slots, which include no
`model`). -/
def pixelCNNClassAttrs : List String :=
  ["__init__", "_masked_conv", "_shift_down", "_feed_v_map",
   "_build_layers", "build_model", "blockcnn_loss", "fit",
   "fit_generator", "load_model", "export_to_json", "export_to_yaml",
   "predict", "print_train_parameters", "export_train_parameters"]

/-- The instance attributes present after `__init__` and `build_model`
have run (each is assigned via `self.<attr> = ...`). -/
def pixelCNNInstanceAttrs : List String :=
  ["input_size", "conditional", "latent_dim", "nb_pixelcnn_layers",
   "nb_filters", "gated", "filter_size_1st", "filter_size", "nb_channels",
   "loss", "optimizer", "es_patience", "save_best_only", "tensorboard",
   "checkpointer", "earlystopping", "h", "predicted", "model"]

/-- Outcome of a modelled Python call. -/
inductive PyCallResult
  | ok
  | attributeError (name : String)
deriving DecidableEq

/-- `PixelCNN.predict` (src/layers.py lines 377-385) is declared
`@classmethod`, so its `self` parameter is bound to the class object and
`self.model` is looked up among the class attributes, never among the
instance attributes. -/
def predictCall : PyCallResult :=
  if "model" ∈ pixelCNNClassAttrs then PyCallResult.ok
  else PyCallResult.attributeError "model"

/-! ### Concrete fixtures for witnesses and counterexamples -/

/-- Convolution weights that are all 1 with zero bias. -/
def oneConvW : ConvW := ⟨fun _ _ _ _ => 1, fun _ => 0⟩

/-- Dense weights that are all 1 with zero bias. -/
def oneDenseW : DenseW := ⟨fun _ _ => 1, fun _ => 0⟩

/-- The identity, standing in for an arbitrary activation in fixtures. -/
def qid : ℚ → ℚ := fun q => q

/-- A concrete parameter assignment: all weights 1, all biases 0. -/
def pOne : Params :=
  ⟨fun _ => oneConvW, fun _ => oneConvW, fun _ => oneConvW, fun _ => oneConvW,
   fun _ => oneDenseW, fun _ => oneDenseW, fun _ => oneConvW, oneConvW,
   qid, qid⟩

/-- Config for the vertical-feed counterexample: a 2×1 one-channel ReLU
model with one layer and 1×1 kernels. -/
def cfgC2 : Config := ⟨2, 1, 1, false, 0, 1, 1, false, (1, 1), (1, 1)⟩

/-- An all-(-1) image. -/
def imgNeg : ℕ → ℕ → ℕ → ℚ := fun _ _ _ => -1

/-- The input tensor of the vertical-feed counterexample. -/
def xC2 : Tensor := inputTensor cfgC2 imgNeg

/-- Config for the causality witness: a 1×2 one-channel ReLU model. -/
def cfgW1 : Config := ⟨1, 2, 1, false, 0, 1, 1, false, (1, 1), (1, 1)⟩

/-- First causality-witness image: differs from `imgB` only at column 1. -/
def imgA : ℕ → ℕ → ℕ → ℚ := fun _ c _ => if c = 0 then 0 else 5

/-- Second causality-witness image: differs from `imgA` only at column 1. -/
def imgB : ℕ → ℕ → ℕ → ℚ := fun _ c _ => if c = 0 then 0 else 7

/-- A zero latent vector. -/
def latZero : ℕ → ℚ := fun _ => 0

/-- Config for the shape witness: 2×3 one-channel conditional gated model
with two layers, 7×7 then 3×3 kernels. -/
def cfg7 : Config := ⟨2, 3, 1, true, 2, 2, 1, true, (7, 7), (3, 3)⟩

/-- A 2×1 map with value `r + 1` at row `r`, for the shift-down witness. -/
def tEx : Tensor := ⟨2, 1, 1, fun r _ _ => (r : ℚ) + 1⟩

/-- A 1×1 two-channel map for the gated activation-unit witness. -/
def xW5 : Tensor := ⟨1, 1, 2, fun _ _ ch => if ch = 0 then 2 else 3⟩

/-- A 1×1 one-channel map for the ReLU activation-unit witness. -/
def xWr5 : Tensor := ⟨1, 1, 1, fun _ _ _ => -2⟩

/-- A 1×1 two-channel all-ones vertical feed map for the unit witness. -/
def v5 : Tensor := ⟨1, 1, 2, fun _ _ _ => 1⟩

/-- An all-ones latent vector. -/
def h5 : ℕ → ℚ := fun _ => 1

end BlockVae

namespace BlockVae

/-! ## Dimension lemmas for the primitive operations -/

@[simp] lemma zeroPadding2D_H (pt pb pl pr : ℕ) (x : Tensor) :
    (zeroPadding2D pt pb pl pr x).H = x.H + pt + pb := rfl

@[simp] lemma zeroPadding2D_W (pt pb pl pr : ℕ) (x : Tensor) :
    (zeroPadding2D pt pb pl pr x).W = x.W + pl + pr := rfl

@[simp] lemma zeroPadding2D_C (pt pb pl pr : ℕ) (x : Tensor) :
    (zeroPadding2D pt pb pl pr x).C = x.C := rfl

@[simp] lemma conv2dValid_H (f kh kw : ℕ) (q : ConvW) (x : Tensor) :
    (conv2dValid f kh kw q x).H = x.H + 1 - kh := rfl

@[simp] lemma conv2dValid_W (f kh kw : ℕ) (q : ConvW) (x : Tensor) :
    (conv2dValid f kh kw q x).W = x.W + 1 - kw := rfl

@[simp] lemma conv2dValid_C (f kh kw : ℕ) (q : ConvW) (x : Tensor) :
    (conv2dValid f kh kw q x).C = f := rfl

@[simp] lemma cropRightT_H (x : Tensor) : (cropRightT x).H = x.H := rfl

@[simp] lemma cropRightT_W (x : Tensor) : (cropRightT x).W = x.W - 1 := rfl

@[simp] lemma cropRightT_C (x : Tensor) : (cropRightT x).C = x.C := rfl

@[simp] lemma cropRightT_val (x : Tensor) : (cropRightT x).val = x.val := rfl

@[simp] lemma addT_H (x y : Tensor) : (addT x y).H = x.H := rfl

@[simp] lemma addT_W (x y : Tensor) : (addT x y).W = x.W := rfl

@[simp] lemma addT_C (x y : Tensor) : (addT x y).C = x.C := rfl

@[simp] lemma addT_val (x y : Tensor) (r c ch : ℕ) :
    (addT x y).val r c ch = x.val r c ch + y.val r c ch := rfl

@[simp] lemma multiplyT_H (x y : Tensor) : (multiplyT x y).H = x.H := rfl

@[simp] lemma multiplyT_W (x y : Tensor) : (multiplyT x y).W = x.W := rfl

@[simp] lemma multiplyT_C (x y : Tensor) : (multiplyT x y).C = x.C := rfl

@[simp] lemma mapVal_H (f : ℚ → ℚ) (x : Tensor) : (mapVal f x).H = x.H := rfl

@[simp] lemma mapVal_W (f : ℚ → ℚ) (x : Tensor) : (mapVal f x).W = x.W := rfl

@[simp] lemma mapVal_C (f : ℚ → ℚ) (x : Tensor) : (mapVal f x).C = x.C := rfl

@[simp] lemma mapVal_val (f : ℚ → ℚ) (x : Tensor) (r c ch : ℕ) :
    (mapVal f x).val r c ch = f (x.val r c ch) := rfl

@[simp] lemma sliceFirst_C (nb : ℕ) (x : Tensor) :
    (sliceFirst nb x).C = min nb x.C := rfl

@[simp] lemma sliceFirst_val (nb : ℕ) (x : Tensor) :
    (sliceFirst nb x).val = x.val := rfl

@[simp] lemma sliceFrom_val (nb : ℕ) (x : Tensor) (r c ch : ℕ) :
    (sliceFrom nb x).val r c ch = x.val r c (nb + ch) := rfl

@[simp] lemma broadcastAdd_H (x : Tensor) (hv : ℕ → ℚ) :
    (broadcastAdd x hv).H = x.H := rfl

@[simp] lemma broadcastAdd_W (x : Tensor) (hv : ℕ → ℚ) :
    (broadcastAdd x hv).W = x.W := rfl

@[simp] lemma broadcastAdd_C (x : Tensor) (hv : ℕ → ℚ) :
    (broadcastAdd x hv).C = x.C := rfl

@[simp] lemma broadcastAdd_val (x : Tensor) (hv : ℕ → ℚ) (r c ch : ℕ) :
    (broadcastAdd x hv).val r c ch = x.val r c ch + hv ch := rfl

@[simp] lemma reluT_H (x : Tensor) : (reluT x).H = x.H := rfl

@[simp] lemma reluT_W (x : Tensor) : (reluT x).W = x.W := rfl

@[simp] lemma reluT_C (x : Tensor) : (reluT x).C = x.C := rfl

@[simp] lemma reluT_val (x : Tensor) (r c ch : ℕ) :
    (reluT x).val r c ch = relu (x.val r c ch) := rfl

@[simp] lemma shiftDown_H (x : Tensor) : (shiftDown x).H = x.H := rfl

@[simp] lemma shiftDown_W (x : Tensor) : (shiftDown x).W = x.W := rfl

@[simp] lemma shiftDown_C (x : Tensor) : (shiftDown x).C = x.C := rfl

lemma shiftDown_val (x : Tensor) (r c ch : ℕ) :
    (shiftDown x).val r c ch =
      if 1 ≤ r ∧ r < 1 + x.H ∧ 0 ≤ c ∧ c < 0 + x.W then
        x.val (r - 1) (c - 0) ch
      else 0 := rfl

/-- Dimensions of the activation units: height is untouched. -/
lemma activationUnit_H (p : Params) (g : Bool) (nb : ℕ) (vm : Option Tensor)
    (lat : Option (ℕ → ℚ)) (ld : ℕ) (dp : DenseW) (cr : Bool) (xW : Tensor) :
    (activationUnit p g nb vm lat ld dp cr xW).H = xW.H := by
  cases g <;> cases cr <;> cases vm <;> cases lat <;> rfl

/-- Dimensions of the activation units: width shrinks by one exactly
under crop-right. -/
lemma activationUnit_W (p : Params) (g : Bool) (nb : ℕ) (vm : Option Tensor)
    (lat : Option (ℕ → ℚ)) (ld : ℕ) (dp : DenseW) (cr : Bool) (xW : Tensor) :
    (activationUnit p g nb vm lat ld dp cr xW).W =
      (if cr then xW.W - 1 else xW.W) := by
  cases g <;> cases cr <;> cases vm <;> cases lat <;> rfl

/-- Dimensions of the activation units: gated output has `min nb C`
channels (so `nb` when `C = 2*nb`), ReLU output keeps `C`. -/
lemma activationUnit_C (p : Params) (g : Bool) (nb : ℕ) (vm : Option Tensor)
    (lat : Option (ℕ → ℚ)) (ld : ℕ) (dp : DenseW) (cr : Bool) (xW : Tensor) :
    (activationUnit p g nb vm lat ld dp cr xW).C =
      (if g then min nb xW.C else xW.C) := by
  cases g <;> cases cr <;> cases vm <;> cases lat <;> rfl

/-- `_masked_conv` computes exactly the padded valid convolution its
`ConvPlan` describes, for every stack and mask kind. -/
lemma maskedConv_eq_plan (g : Bool) (nb : ℕ) (fs : ℕ × ℕ)
    (sn mt : String) (q : ConvW) (x : Tensor) :
    maskedConv g nb fs sn mt q x =
      (maskedConvPlan g nb fs sn mt).map (fun pl => applyPlan pl q x) := by
  unfold maskedConv maskedConvPlan
  split_ifs <;> rfl

/-! ## Claims C3, C4, C5, C6 (functional correctness of the pieces) -/

/-- Claim C3: the masked-convolution construction rule.  A vertical-stack
call with kernel `(kh, kw)` pads `kh//2` rows above, 0 below and `kw//2`
on each side, and applies a valid convolution of kernel `(kh//2+1, kw)`;
a horizontal mask-B call pads `kw//2` columns left, 0 right, with a valid
`1 × (kw//2+1)` kernel; a horizontal mask-A call uses kernel width
`kw//2`; the produced channel count is `2*nb_filters` when gated, else
`nb_filters`. -/
theorem c3_masked_conv_rule (g : Bool) (nb : ℕ) (fs : ℕ × ℕ) (mt : String) :
    maskedConvPlan g nb fs "vertical" mt
      = some ⟨fs.1 / 2, 0, fs.2 / 2, fs.2 / 2, fs.1 / 2 + 1, fs.2,
          if g then 2 * nb else nb⟩ ∧
    maskedConvPlan g nb fs "horizontal" "B"
      = some ⟨0, 0, fs.2 / 2, 0, 1, fs.2 / 2 + 1, if g then 2 * nb else nb⟩ ∧
    maskedConvPlan g nb fs "horizontal" "A"
      = some ⟨0, 0, fs.2 / 2, 0, 1, fs.2 / 2, if g then 2 * nb else nb⟩ :=
  ⟨rfl, rfl, rfl⟩

/-- Claim C4: the shift-down of the vertical feed projector preserves
height and width, zeroes row 0, moves row `r-1` to row `r` (within the
valid width), and the projector is exactly shift-down followed by a 1×1
convolution to `2*nb_filters` (gated) or `nb_filters` channels. -/
theorem c4_shift_down_projector (x : Tensor) (g : Bool) (nb : ℕ) (q : ConvW) :
    (shiftDown x).H = x.H ∧ (shiftDown x).W = x.W ∧
    (∀ r c ch, r < x.H → c < x.W →
      (shiftDown x).val r c ch = if r = 0 then 0 else x.val (r - 1) c ch) ∧
    feedVMap g nb q x
      = conv2dValid (if g then 2 * nb else nb) 1 1 q (shiftDown x) ∧
    (feedVMap g nb q x).C = (if g then 2 * nb else nb) := by
  refine ⟨rfl, rfl, ?_, rfl, rfl⟩
  intro r c ch hr hc
  rw [shiftDown_val]
  rcases Nat.eq_zero_or_pos r with h0 | h0
  · subst h0
    rw [if_neg (by omega), if_pos rfl]
  · rw [if_pos ⟨h0, by omega, Nat.zero_le c, by omega⟩, if_neg (by omega)]
    rfl

/-- Witness for C4 at a concrete map: row 1 of the shifted 2×1 map `tEx`
holds `tEx`'s row 0 value, namely 1. -/
theorem c4_witness : (1 : ℕ) < tEx.H ∧ (shiftDown tEx).val 1 0 0 = 1 := by
  refine ⟨by decide, ?_⟩
  rw [(c4_shift_down_projector tEx false 1 oneConvW).2.2.1 1 0 0 (by decide)
    (by decide)]
  norm_num [tEx]

/-- Claim C5: the activation units apply crop-right, vertical-feed merge,
latent merge (dense width `2*nb_filters` gated / `nb_filters` ReLU,
broadcast-added), then the gate `tanh(first nb) * sigmoid(rest)` with
exactly `nb_filters` output channels — or a plain ReLU with the channel
count unchanged. -/
theorem c5_activation_unit_semantics (t s : ℚ → ℚ) (nb ld : ℕ) (v : Tensor)
    (h : ℕ → ℚ) (dp : DenseW) (cr : Bool) (xW xWr : Tensor)
    (hC : xW.C = 2 * nb) :
    (gatedCNNCall t s nb (some v) (some h) ld dp cr xW).C = nb ∧
    (gatedCNNCall t s nb (some v) (some h) ld dp cr xW).W
      = (if cr then xW.W - 1 else xW.W) ∧
    (∀ r c o,
      (gatedCNNCall t s nb (some v) (some h) ld dp cr xW).val r c o
        = t (xW.val r c o + v.val r c o + dense (2 * nb) ld dp h o)
          * s (xW.val r c (nb + o) + v.val r c (nb + o)
              + dense (2 * nb) ld dp h (nb + o))) ∧
    (∀ r c o,
      (gatedCNNCall t s nb none none ld dp false xW).val r c o
        = t (xW.val r c o) * s (xW.val r c (nb + o))) ∧
    (reLUCNNCall nb (some v) (some h) ld dp cr xWr).C = xWr.C ∧
    (∀ r c ch,
      (reLUCNNCall nb (some v) (some h) ld dp cr xWr).val r c ch
        = relu (xWr.val r c ch + v.val r c ch + dense nb ld dp h ch)) ∧
    (∀ r c ch,
      (reLUCNNCall nb none none ld dp false xWr).val r c ch
        = relu (xWr.val r c ch)) := by
  refine ⟨?_, ?_, ?_, ?_, ?_, ?_, ?_⟩
  · cases cr
    · show min nb xW.C = nb
      rw [hC]; omega
    · show min nb xW.C = nb
      rw [hC]; omega
  · cases cr <;> rfl
  · intro r c o; cases cr <;> rfl
  · intro r c o; rfl
  · cases cr <;> rfl
  · intro r c ch; cases cr <;> rfl
  · intro r c ch; rfl

/-- Witness for C5 on a concrete 1×1 two-channel map with feed map,
latent vector and crop-right all present. -/
theorem c5_witness :
    xW5.C = 2 * 1 ∧
    (gatedCNNCall qid qid 1 (some v5) (some h5) 1 oneDenseW true xW5).val 0 0 0
      = qid (xW5.val 0 0 0 + v5.val 0 0 0 + dense (2 * 1) 1 oneDenseW h5 0)
        * qid (xW5.val 0 0 (1 + 0) + v5.val 0 0 (1 + 0)
            + dense (2 * 1) 1 oneDenseW h5 (1 + 0)) :=
  ⟨rfl, (c5_activation_unit_semantics qid qid 1 1 v5 h5 oneDenseW true xW5
    xWr5 rfl).2.2.1 0 0 0⟩

/-- Claim C6: residual aggregation.  Each loop layer's horizontal output
is the elementwise sum of its post-1×1-projection output and the previous
layer's horizontal output; with `nb_pixelcnn_layers = 1` the graph is the
head applied directly to layer 0's horizontal output, which is a 1×1
projection of the activation with no residual addition. -/
theorem c6_residual_aggregation (cfg : Config) (p : Params)
    (lat : Option (ℕ → ℚ)) (i : ℕ) (st : Tensor × Tensor) (x : Tensor)
    (r c ch : ℕ) :
    (layerStep cfg p lat i st).2.val r c ch
      = (stepHProj cfg p lat i st.1 st.2).val r c ch + st.2.val r c ch ∧
    buildLayers { cfg with nbLayers := 1 } p x lat
      = headOut cfg p (layer0HStack cfg p x lat) ∧
    layer0HStack cfg p x lat
      = conv2dValid cfg.nbFilters 1 1 (p.h1x1 0)
          (activationUnit p cfg.gated cfg.nbFilters
            (some (layer0VFeed cfg p x)) lat cfg.latentDim (p.hDense 0) true
            (layer0HMasked cfg p x)) :=
  ⟨rfl, rfl, rfl⟩

/-! ## Claim C2 (corrected): what feeds the vertical feed projector -/

/-- Claim C2 counterexample: with all-1 weights on an all-(-1) 2×1 image
in the one-layer ReLU configuration `cfgC2`, the vertical feed map the
graph actually merges (built from the masked-conv output) has value -1 at
row 1, while the projector applied to the vertical *activation* output
would give 0 there — so the feed projector's input is not the activated
output. -/
theorem c2_counterexample :
    (layer0VFeed cfgC2 pOne xC2).val 1 0 0 = -1 ∧
    (feedVMap cfgC2.gated cfgC2.nbFilters (pOne.vFeed 0)
      (layer0VStack cfgC2 pOne xC2 none)).val 1 0 0 = 0 ∧
    (layer0VFeed cfgC2 pOne xC2).val 1 0 0
      < (feedVMap cfgC2.gated cfgC2.nbFilters (pOne.vFeed 0)
          (layer0VStack cfgC2 pOne xC2 none)).val 1 0 0 := by
  refine ⟨?_, ?_, ?_⟩ <;>
    norm_num [layer0VFeed, layer0VStack, layer0VMasked, feedVMap, maskedConvV,
      conv2dValid, zeroPadding2D, shiftDown, activationUnit, reLUCNNCall,
      reluT, mapVal, relu, myNbF, cfgC2, pOne, oneConvW, oneDenseW, xC2,
      inputTensor, imgNeg, Finset.sum_range_one]

/-- Claim C2 (amended): at layer 0 and at every subsequent layer the
vertical feed map merged into the horizontal activation unit is the
shift-down-and-1×1 projector applied to that layer's vertical
*masked-convolution* output (the pre-activation map), not to the
activation unit's output. -/
theorem c2_feed_projector_input (cfg : Config) (p : Params) (x : Tensor)
    (lat : Option (ℕ → ℚ)) (i : ℕ) (st : Tensor × Tensor) :
    layer0VFeed cfg p x
      = feedVMap cfg.gated cfg.nbFilters (p.vFeed 0) (layer0VMasked cfg p x) ∧
    stepVFeed cfg p i st.1
      = feedVMap cfg.gated cfg.nbFilters (p.vFeed i)
          (stepVMasked cfg p i st.1) ∧
    stepHProj cfg p lat i st.1 st.2
      = conv2dValid cfg.nbFilters 1 1 (p.h1x1 i)
          (activationUnit p cfg.gated cfg.nbFilters
            (some (stepVFeed cfg p i st.1)) lat cfg.latentDim (p.hDense i)
            false (stepHMasked cfg p i st.2)) ∧
    layerStep cfg p lat i st
      = (stepVStack cfg p lat i st.1,
         addT (stepHProj cfg p lat i st.1 st.2) st.2) :=
  ⟨rfl, rfl, rfl, rfl⟩

/-! ## Claims C8, C9, C10 (construction-time behaviour) -/

/-- Claim C8: `PixelCNN.predict` is a `@classmethod` whose body reads
`self.model`; `model` is only ever an instance attribute (set by
`build_model`), not a class attribute, so every call raises
`AttributeError` instead of returning predictions. -/
theorem c8_predict_attribute_error :
    predictCall = PyCallResult.attributeError "model" ∧
    pixelCNNClassAttrs.contains "model" = false ∧
    "model" ∈ pixelCNNInstanceAttrs := by
  refine ⟨?_, by decide, by decide⟩
  unfold predictCall
  rw [if_neg (by decide)]

/-- Claim C9 counterexample: instantiating `PixelCNN` performs a
filesystem modification — `__init__` always runs
`os.makedirs('./block_cnn_logs')` (after `shutil.rmtree` when the
directory exists), so construction is not free of filesystem effects. -/
theorem c9_counterexample :
    FsOp.makedirs tensorboardDir ∈ initFsOps false := by
  unfold initFsOps
  simp

/-- Claim C9 (amended): `__init__` always modifies the filesystem
(recreating `./block_cnn_logs`, removing it first when present), while
the graph-building methods `_build_layers`/`build_model` perform no
filesystem effects; graph construction itself is a pure function of the
configuration and parameters. -/
theorem c9_init_fs_effects :
    (∀ b : Bool, FsOp.makedirs tensorboardDir ∈ initFsOps b) ∧
    buildGraphFsOps = [] := by
  constructor
  · intro b
    cases b <;> simp [initFsOps]
  · rfl

/-- Claim C10 counterexample: a gated activation unit called with the
unrecognized stack name "diagonal" and `crop_right=True` builds the crop
`Lambda` tensor op before failing — the construction does fail, but not
before any tensor operation. -/
theorem c10_counterexample :
    gatedCallTrace "diagonal" true false false
      = ([GraphOp.lambdaCrop], false) := rfl

/-- Claim C10 (amended): any unrecognized stack kind makes construction
fail; `_masked_conv` fails before building any op (and returns no
tensor), while the activation units fail only at the first name that
needs the stack tag, after having built the crop-right and vertical-feed
merge ops their flags enable. -/
theorem c10_unrecognized_stack (sn mt : String) (cr hv hl : Bool)
    (g : Bool) (nb : ℕ) (fs : ℕ × ℕ) (q : ConvW) (x : Tensor)
    (htag : stackTagOf sn = none) :
    maskedConvTrace sn mt = ([], false) ∧
    maskedConv g nb fs sn mt q x = none ∧
    (gatedCallTrace sn cr hv hl).2 = false ∧
    (gatedCallTrace sn cr hv hl).1
      = (if cr then [GraphOp.lambdaCrop] else []) ++
        (if hv then [GraphOp.addMerge] else []) ∧
    (reluCallTrace sn cr hv hl).2 = false ∧
    (reluCallTrace sn cr hv hl).1
      = (if cr then [GraphOp.lambdaCrop] else []) ++
        (if hv then [GraphOp.addMerge] else []) := by
  have hsv : sn ≠ "vertical" := by
    intro he
    rw [he] at htag
    exact Option.noConfusion htag
  have hsh : sn ≠ "horizontal" := by
    intro he
    rw [he] at htag
    exact Option.noConfusion htag
  refine ⟨?_, ?_, ?_, ?_, ?_, ?_⟩
  · unfold maskedConvTrace
    rw [if_neg hsv, if_neg hsh]
  · unfold maskedConv
    rw [if_neg hsv, if_neg hsh]
  · simp only [gatedCallTrace, htag]
  · simp only [gatedCallTrace, htag]
  · simp only [reluCallTrace, htag]
  · simp only [reluCallTrace, htag]

/-- Witness for C10 at the concrete stack name "diagonal": the masked
conv builder fails with no ops built. -/
theorem c10_witness :
    stackTagOf "diagonal" = none ∧ maskedConvTrace "diagonal" "B" = ([], false) :=
  ⟨rfl, (c10_unrecognized_stack "diagonal" "B" true false false false 1 (3, 3)
    oneConvW tEx rfl).1⟩

end BlockVae

namespace BlockVae

/-! ## Pointwise value lemmas for the activation units -/

@[simp] lemma multiplyT_val (x y : Tensor) (r c ch : ℕ) :
    (multiplyT x y).val r c ch = x.val r c ch * y.val r c ch := rfl

/-- Closed form of the gated unit's value at `(r, c, o)`: crop-right does
not reindex surviving positions, the optional merges contribute
additively, and the gate multiplies `tanh` of channel `o` with `sigmoid`
of channel `nb + o`. -/
lemma gatedCNNCall_val (t s : ℚ → ℚ) (nb : ℕ) (vm : Option Tensor)
    (lat : Option (ℕ → ℚ)) (ld : ℕ) (dp : DenseW) (cr : Bool) (xW : Tensor)
    (r c o : ℕ) :
    (gatedCNNCall t s nb vm lat ld dp cr xW).val r c o
      = t (xW.val r c o + optVal vm r c o + optLat lat (2 * nb) ld dp o)
        * s (xW.val r c (nb + o) + optVal vm r c (nb + o)
            + optLat lat (2 * nb) ld dp (nb + o)) := by
  cases cr <;> cases vm <;> cases lat <;> simp [gatedCNNCall, optVal, optLat]

/-- Closed form of the ReLU unit's value at `(r, c, ch)`. -/
lemma reLUCNNCall_val (nb : ℕ) (vm : Option Tensor)
    (lat : Option (ℕ → ℚ)) (ld : ℕ) (dp : DenseW) (cr : Bool) (xW : Tensor)
    (r c ch : ℕ) :
    (reLUCNNCall nb vm lat ld dp cr xW).val r c ch
      = relu (xW.val r c ch + optVal vm r c ch
            + optLat lat nb ld dp ch) := by
  cases cr <;> cases vm <;> cases lat <;> simp [reLUCNNCall, optVal, optLat]

/-! ## Receptive-field congruence lemmas

Each lemma says: if two runs' inputs agree on a region, the outputs agree
on the region determined by the operation's receptive field. -/

/-- A valid convolution's output at `(r, c)` only reads input rows
`r..r+kh-1`, columns `c..c+kw-1`, channels `< C`. -/
lemma conv2dValid_val_congr (f kh kw : ℕ) (q : ConvW) (x y : Tensor)
    (r c o : ℕ) (hC : x.C = y.C)
    (hval : ∀ i j ch, i < kh → j < kw → ch < x.C →
      x.val (r + i) (c + j) ch = y.val (r + i) (c + j) ch) :
    (conv2dValid f kh kw q x).val r c o
      = (conv2dValid f kh kw q y).val r c o := by
  simp only [conv2dValid]
  rw [← hC]
  refine congrArg (fun z => q.b o + z) ?_
  refine Finset.sum_congr rfl fun i hi => ?_
  refine Finset.sum_congr rfl fun j hj => ?_
  refine Finset.sum_congr rfl fun ch hch => ?_
  rw [hval i j ch (Finset.mem_range.mp hi) (Finset.mem_range.mp hj)
    (Finset.mem_range.mp hch)]

/-- Padding reads the underlying map only inside the guard, at the
unshifted position. -/
lemma zeroPadding2D_val_congr (pt pb pl pr : ℕ) (x y : Tensor) (r c ch : ℕ)
    (hH : x.H = y.H) (hW : x.W = y.W)
    (hval : pt ≤ r → r < pt + x.H → pl ≤ c → c < pl + x.W →
      x.val (r - pt) (c - pl) ch = y.val (r - pt) (c - pl) ch) :
    (zeroPadding2D pt pb pl pr x).val r c ch
      = (zeroPadding2D pt pb pl pr y).val r c ch := by
  simp only [zeroPadding2D]
  rw [← hH, ← hW]
  split_ifs with hcond
  · exact hval hcond.1 hcond.2.1 hcond.2.2.1 hcond.2.2.2
  · rfl

/-- The shifted map reads the underlying map one row up, inside the
guard. -/
lemma shiftDown_val_congr (x y : Tensor) (r c ch : ℕ)
    (hH : x.H = y.H) (hW : x.W = y.W)
    (hval : 1 ≤ r → r < 1 + x.H → c < x.W →
      x.val (r - 1) (c - 0) ch = y.val (r - 1) (c - 0) ch) :
    (shiftDown x).val r c ch = (shiftDown y).val r c ch := by
  rw [shiftDown_val, shiftDown_val, ← hH, ← hW]
  split_ifs with hcond
  · exact hval hcond.1 hcond.2.1 (by omega)
  · rfl

/-- The vertical masked convolution at row `r` reads only rows `≤ r` of
its input: agreement below row `r0` is preserved. -/
lemma maskedConvV_causal (r0 myNb : ℕ) (fs : ℕ × ℕ) (q : ConvW)
    (x y : Tensor) (hH : x.H = y.H) (hW : x.W = y.W) (hC : x.C = y.C)
    (hval : ∀ r c ch, r < x.H → c < x.W → ch < x.C → r < r0 →
      x.val r c ch = y.val r c ch) :
    ∀ r c o, r < r0 →
      (maskedConvV myNb fs q x).val r c o
        = (maskedConvV myNb fs q y).val r c o := by
  intro r c o hr
  refine conv2dValid_val_congr _ _ _ _ _ _ _ _ _ hC ?_
  intro i j ch hi hj hch
  refine zeroPadding2D_val_congr _ _ _ _ _ _ _ _ _ hH hW ?_
  intro h1 h2 h3 h4
  exact hval _ _ _ (by omega) (by omega) hch (by omega)

/-- The shift-down-and-1×1 feed projector at row `r` reads only rows
`≤ r - 1`: agreement below row `r0` becomes agreement up to row `r0`. -/
lemma feedVMap_causal (r0 : ℕ) (g : Bool) (nb : ℕ) (q : ConvW)
    (x y : Tensor) (hH : x.H = y.H) (hW : x.W = y.W) (hC : x.C = y.C)
    (hval : ∀ r c ch, r < x.H → c < x.W → ch < x.C → r < r0 →
      x.val r c ch = y.val r c ch) :
    ∀ r c o, r ≤ r0 →
      (feedVMap g nb q x).val r c o = (feedVMap g nb q y).val r c o := by
  intro r c o hr
  refine conv2dValid_val_congr _ _ _ _ _ _ _ _ _ hC ?_
  intro i j ch hi hj hch
  have hi0 : i = 0 := by omega
  have hj0 : j = 0 := by omega
  subst hi0
  subst hj0
  refine shiftDown_val_congr _ _ _ _ _ hH hW ?_
  intro h1 h2 h3
  exact hval _ _ _ (by omega) (by omega) hch (by omega)

/-- The mask-A horizontal convolution at `(r, c)` reads only same-row
columns `< c`: input agreement at positions not after `(r0, c0)` is
preserved. -/
lemma maskedConvHA_causal (r0 c0 myNb : ℕ) (fs : ℕ × ℕ) (q : ConvW)
    (x y : Tensor) (hH : x.H = y.H) (hW : x.W = y.W) (hC : x.C = y.C)
    (hval : ∀ r c ch, r < x.H → c < x.W → ch < x.C → notAfter r c r0 c0 →
      x.val r c ch = y.val r c ch) :
    ∀ r c o, notAfter r c r0 c0 →
      (maskedConvHA myNb fs q x).val r c o
        = (maskedConvHA myNb fs q y).val r c o := by
  intro r c o hna
  refine conv2dValid_val_congr _ _ _ _ _ _ _ _ _ hC ?_
  intro i j ch hi hj hch
  have hi0 : i = 0 := by omega
  subst hi0
  refine zeroPadding2D_val_congr _ _ _ _ _ _ _ _ _ hH hW ?_
  intro h1 h2 h3 h4
  refine hval _ _ _ (by omega) (by omega) hch ?_
  rcases hna with hlt | ⟨heq, hle⟩
  · exact Or.inl (by omega)
  · exact Or.inr ⟨by omega, by omega⟩

/-- The mask-B horizontal convolution at `(r, c)` reads only same-row
columns `≤ c`: agreement at positions not after `(r0, c0)` is
preserved. -/
lemma maskedConvHB_causal (r0 c0 myNb : ℕ) (fs : ℕ × ℕ) (q : ConvW)
    (x y : Tensor) (hH : x.H = y.H) (hW : x.W = y.W) (hC : x.C = y.C)
    (hval : ∀ r c ch, r < x.H → c < x.W → ch < x.C → notAfter r c r0 c0 →
      x.val r c ch = y.val r c ch) :
    ∀ r c o, notAfter r c r0 c0 →
      (maskedConvHB myNb fs q x).val r c o
        = (maskedConvHB myNb fs q y).val r c o := by
  intro r c o hna
  refine conv2dValid_val_congr _ _ _ _ _ _ _ _ _ hC ?_
  intro i j ch hi hj hch
  have hi0 : i = 0 := by omega
  subst hi0
  refine zeroPadding2D_val_congr _ _ _ _ _ _ _ _ _ hH hW ?_
  intro h1 h2 h3 h4
  refine hval _ _ _ (by omega) (by omega) hch ?_
  rcases hna with hlt | ⟨heq, hle⟩
  · exact Or.inl (by omega)
  · exact Or.inr ⟨by omega, by omega⟩

/-- An activation unit is pointwise in `(r, c)` (reading two channels in
the gated case), so it preserves agreement on any spatial region `P`,
given the merged feed maps also agree on `P`. -/
lemma activationUnit_causal (P : ℕ → ℕ → Prop) (p : Params) (g : Bool)
    (nb ld : ℕ) (dp : DenseW) (cr : Bool) (lat : Option (ℕ → ℚ))
    (vm vm' : Option Tensor) (xW xW' : Tensor)
    (hvm : ∀ r c ch, P r c → optVal vm r c ch = optVal vm' r c ch)
    (hx : ∀ r c ch, P r c → xW.val r c ch = xW'.val r c ch) :
    ∀ r c ch, P r c →
      (activationUnit p g nb vm lat ld dp cr xW).val r c ch
        = (activationUnit p g nb vm' lat ld dp cr xW').val r c ch := by
  intro r c ch hP
  cases g
  · show (reLUCNNCall nb vm lat ld dp cr xW).val r c ch
      = (reLUCNNCall nb vm' lat ld dp cr xW').val r c ch
    rw [reLUCNNCall_val, reLUCNNCall_val, hx r c ch hP, hvm r c ch hP]
  · show (gatedCNNCall p.tanh p.sigm nb vm lat ld dp cr xW).val r c ch
      = (gatedCNNCall p.tanh p.sigm nb vm' lat ld dp cr xW').val r c ch
    rw [gatedCNNCall_val, gatedCNNCall_val, hx r c ch hP,
      hx r c (nb + ch) hP, hvm r c ch hP, hvm r c (nb + ch) hP]

/-- A 1×1 convolution is pointwise in `(r, c)`. -/
lemma conv1x1_causal (P : ℕ → ℕ → Prop) (f : ℕ) (q : ConvW) (x y : Tensor)
    (hC : x.C = y.C)
    (hx : ∀ r c ch, P r c → x.val r c ch = y.val r c ch) :
    ∀ r c o, P r c →
      (conv2dValid f 1 1 q x).val r c o = (conv2dValid f 1 1 q y).val r c o := by
  intro r c o hP
  refine conv2dValid_val_congr _ _ _ _ _ _ _ _ _ hC ?_
  intro i j ch hi hj hch
  have hi0 : i = 0 := by omega
  have hj0 : j = 0 := by omega
  subst hi0
  subst hj0
  exact hx (r + 0) (c + 0) ch hP

/-- The head (two 1×1 ReLU convolutions and the final 1×1 projection) is
pointwise in `(r, c)`. -/
lemma headOut_causal (P : ℕ → ℕ → Prop) (cfg : Config) (p : Params)
    (x y : Tensor) (hC : x.C = y.C)
    (hx : ∀ r c ch, P r c → x.val r c ch = y.val r c ch) :
    ∀ r c ch, P r c →
      (headOut cfg p x).val r c ch = (headOut cfg p y).val r c ch := by
  have h1 : ∀ r c ch, P r c →
      (reluT (conv2dValid cfg.nbFilters 1 1 (p.pen 0) x)).val r c ch
        = (reluT (conv2dValid cfg.nbFilters 1 1 (p.pen 0) y)).val r c ch := by
    intro r c ch hP
    rw [reluT_val, reluT_val,
      conv1x1_causal P cfg.nbFilters (p.pen 0) x y hC hx r c ch hP]
  have h2 : ∀ r c ch, P r c →
      (reluT (conv2dValid cfg.nbFilters 1 1 (p.pen 1)
        (reluT (conv2dValid cfg.nbFilters 1 1 (p.pen 0) x)))).val r c ch
      = (reluT (conv2dValid cfg.nbFilters 1 1 (p.pen 1)
        (reluT (conv2dValid cfg.nbFilters 1 1 (p.pen 0) y)))).val r c ch := by
    intro r c ch hP
    rw [reluT_val, reluT_val,
      conv1x1_causal P cfg.nbFilters (p.pen 1)
        (reluT (conv2dValid cfg.nbFilters 1 1 (p.pen 0) x))
        (reluT (conv2dValid cfg.nbFilters 1 1 (p.pen 0) y)) rfl h1 r c ch hP]
  intro r c ch hP
  exact conv1x1_causal P cfg.nbChannels p.outW
    (reluT (conv2dValid cfg.nbFilters 1 1 (p.pen 1)
      (reluT (conv2dValid cfg.nbFilters 1 1 (p.pen 0) x))))
    (reluT (conv2dValid cfg.nbFilters 1 1 (p.pen 1)
      (reluT (conv2dValid cfg.nbFilters 1 1 (p.pen 0) y)))) rfl h2 r c ch hP

/-! ## Dimension congruence lemmas -/

lemma dimsEq_zeroPadding2D (pt pb pl pr : ℕ) {x y : Tensor}
    (h : dimsEq x y) :
    dimsEq (zeroPadding2D pt pb pl pr x) (zeroPadding2D pt pb pl pr y) :=
  ⟨by simp [h.1], by simp [h.2.1], h.2.2⟩

lemma dimsEq_conv2dValid (f kh kw : ℕ) (q q' : ConvW) {x y : Tensor}
    (h : dimsEq x y) :
    dimsEq (conv2dValid f kh kw q x) (conv2dValid f kh kw q' y) :=
  ⟨by simp [h.1], by simp [h.2.1], rfl⟩

lemma dimsEq_maskedConvV (myNb : ℕ) (fs : ℕ × ℕ) (q : ConvW) {x y : Tensor}
    (h : dimsEq x y) :
    dimsEq (maskedConvV myNb fs q x) (maskedConvV myNb fs q y) :=
  dimsEq_conv2dValid _ _ _ _ _ (dimsEq_zeroPadding2D _ _ _ _ h)

lemma dimsEq_maskedConvHB (myNb : ℕ) (fs : ℕ × ℕ) (q : ConvW) {x y : Tensor}
    (h : dimsEq x y) :
    dimsEq (maskedConvHB myNb fs q x) (maskedConvHB myNb fs q y) :=
  dimsEq_conv2dValid _ _ _ _ _ (dimsEq_zeroPadding2D _ _ _ _ h)

lemma dimsEq_shiftDown {x y : Tensor} (h : dimsEq x y) :
    dimsEq (shiftDown x) (shiftDown y) :=
  ⟨by simp [h.1], by simp [h.2.1], h.2.2⟩

lemma dimsEq_feedVMap (g : Bool) (nb : ℕ) (q : ConvW) {x y : Tensor}
    (h : dimsEq x y) :
    dimsEq (feedVMap g nb q x) (feedVMap g nb q y) :=
  dimsEq_conv2dValid _ _ _ _ _ (dimsEq_shiftDown h)

lemma dimsEq_activationUnit (p : Params) (g : Bool) (nb ld : ℕ)
    (dp : DenseW) (cr : Bool) (lat : Option (ℕ → ℚ))
    (vm vm' : Option Tensor) {x y : Tensor} (h : dimsEq x y) :
    dimsEq (activationUnit p g nb vm lat ld dp cr x)
      (activationUnit p g nb vm' lat ld dp cr y) :=
  ⟨by rw [activationUnit_H, activationUnit_H, h.1],
   by rw [activationUnit_W, activationUnit_W, h.2.1],
   by rw [activationUnit_C, activationUnit_C, h.2.2]⟩

lemma dimsEq_addT {x y : Tensor} (u w : Tensor) (h : dimsEq x y) :
    dimsEq (addT x u) (addT y w) := ⟨h.1, h.2.1, h.2.2⟩

/-! ## The causality invariant through the layers -/

/-- One loop layer preserves the causality invariant. -/
lemma layerStep_inv (cfg : Config) (p : Params) (lat : Option (ℕ → ℚ))
    (r0 c0 i : ℕ) (st st' : Tensor × Tensor) (h : stInv r0 c0 st st') :
    stInv r0 c0 (layerStep cfg p lat i st) (layerStep cfg p lat i st') := by
  obtain ⟨hd1, hd2, hv, hh⟩ := h
  have hvmDims : dimsEq (stepVMasked cfg p i st.1) (stepVMasked cfg p i st'.1) :=
    dimsEq_maskedConvV _ _ _ hd1
  have hvm : ∀ r c ch, r < r0 →
      (stepVMasked cfg p i st.1).val r c ch
        = (stepVMasked cfg p i st'.1).val r c ch := by
    intro r c ch hr
    exact maskedConvV_causal r0 _ _ _ _ _ hd1.1 hd1.2.1 hd1.2.2
      (fun r c ch _ _ _ hrr => hv r c ch hrr) r c ch hr
  have hvOut : ∀ r c ch, r < r0 →
      (stepVStack cfg p lat i st.1).val r c ch
        = (stepVStack cfg p lat i st'.1).val r c ch := by
    intro r c ch hr
    exact activationUnit_causal (fun r _ => r < r0) p cfg.gated cfg.nbFilters
      cfg.latentDim (p.vDense i) false lat none none _ _
      (fun _ _ _ _ => rfl) hvm r c ch hr
  have hfeed : ∀ r c ch, r ≤ r0 →
      (stepVFeed cfg p i st.1).val r c ch
        = (stepVFeed cfg p i st'.1).val r c ch := by
    intro r c ch hr
    exact feedVMap_causal r0 _ _ _ _ _ hvmDims.1 hvmDims.2.1 hvmDims.2.2
      (fun r c ch _ _ _ hrr => hvm r c ch hrr) r c ch hr
  have hhm : ∀ r c ch, notAfter r c r0 c0 →
      (stepHMasked cfg p i st.2).val r c ch
        = (stepHMasked cfg p i st'.2).val r c ch := by
    intro r c ch hna
    exact maskedConvHB_causal r0 c0 _ _ _ _ _ hd2.1 hd2.2.1 hd2.2.2
      (fun r c ch _ _ _ hna' => hh r c ch hna') r c ch hna
  have hunit : ∀ r c ch, notAfter r c r0 c0 →
      (activationUnit p cfg.gated cfg.nbFilters
        (some (stepVFeed cfg p i st.1)) lat cfg.latentDim (p.hDense i) false
        (stepHMasked cfg p i st.2)).val r c ch
      = (activationUnit p cfg.gated cfg.nbFilters
        (some (stepVFeed cfg p i st'.1)) lat cfg.latentDim (p.hDense i) false
        (stepHMasked cfg p i st'.2)).val r c ch := by
    intro r c ch hna
    refine activationUnit_causal (fun r' c' => notAfter r' c' r0 c0) p
      cfg.gated cfg.nbFilters cfg.latentDim (p.hDense i) false lat _ _ _ _
      ?_ hhm r c ch hna
    intro r c ch hna'
    have hrle : r ≤ r0 := by rcases hna' with h1 | ⟨h1, _⟩ <;> omega
    exact hfeed r c ch hrle
  have hproj : ∀ r c ch, notAfter r c r0 c0 →
      (stepHProj cfg p lat i st.1 st.2).val r c ch
        = (stepHProj cfg p lat i st'.1 st'.2).val r c ch := by
    intro r c ch hna
    refine conv1x1_causal (fun r' c' => notAfter r' c' r0 c0) cfg.nbFilters
      (p.h1x1 i) _ _ ?_ hunit r c ch hna
    rw [activationUnit_C, activationUnit_C]
    simp [stepHMasked, maskedConvHB]
  refine ⟨?_, ?_, ?_, ?_⟩
  · exact dimsEq_activationUnit _ _ _ _ _ _ _ _ _ hvmDims
  · refine dimsEq_addT _ _ ?_
    refine dimsEq_conv2dValid _ _ _ _ _ ?_
    exact dimsEq_activationUnit _ _ _ _ _ _ _ _ _
      (dimsEq_maskedConvHB _ _ _ hd2)
  · intro r c ch hr
    exact hvOut r c ch hr
  · intro r c ch hna
    simp only [layerStep, addT_val]
    rw [hproj r c ch hna, hh r c ch hna]

/-- The whole residual loop preserves the causality invariant. -/
lemma loopFrom_inv (cfg : Config) (p : Params) (lat : Option (ℕ → ℚ))
    (r0 c0 : ℕ) :
    ∀ k i st st', stInv r0 c0 st st' →
      stInv r0 c0 (loopFrom cfg p lat i k st) (loopFrom cfg p lat i k st') := by
  intro k
  induction k with
  | zero => exact fun i st st' h => h
  | succ n ih =>
    intro i st st' h
    exact ih (i + 1) _ _ (layerStep_inv cfg p lat r0 c0 i st st' h)

/-- Layer 0 establishes the causality invariant from input images that
agree at all in-range positions not after `(r0, c0)`. -/
lemma layer0_inv (cfg : Config) (p : Params) (lat : Option (ℕ → ℚ))
    (r0 c0 : ℕ) (imgX imgY : ℕ → ℕ → ℕ → ℚ)
    (hagree : ∀ r c ch, r < cfg.inputH → c < cfg.inputW →
      ch < cfg.nbChannels → notAfter r c r0 c0 → imgX r c ch = imgY r c ch) :
    stInv r0 c0
      (layer0VStack cfg p (inputTensor cfg imgX) lat,
       layer0HStack cfg p (inputTensor cfg imgX) lat)
      (layer0VStack cfg p (inputTensor cfg imgY) lat,
       layer0HStack cfg p (inputTensor cfg imgY) lat) := by
  have hvm : ∀ r c ch, r < r0 →
      (layer0VMasked cfg p (inputTensor cfg imgX)).val r c ch
        = (layer0VMasked cfg p (inputTensor cfg imgY)).val r c ch := by
    intro r c ch hr
    refine maskedConvV_causal r0 (myNbF cfg) cfg.fs1 (p.vConv 0)
      (inputTensor cfg imgX) (inputTensor cfg imgY) rfl rfl rfl ?_ r c ch hr
    intro r c ch h1 h2 h3 h4
    exact hagree r c ch h1 h2 h3 (Or.inl h4)
  have hvOut : ∀ r c ch, r < r0 →
      (layer0VStack cfg p (inputTensor cfg imgX) lat).val r c ch
        = (layer0VStack cfg p (inputTensor cfg imgY) lat).val r c ch := by
    intro r c ch hr
    exact activationUnit_causal (fun r _ => r < r0) p cfg.gated cfg.nbFilters
      cfg.latentDim (p.vDense 0) false lat none none
      (layer0VMasked cfg p (inputTensor cfg imgX))
      (layer0VMasked cfg p (inputTensor cfg imgY))
      (fun _ _ _ _ => rfl) hvm r c ch hr
  have hfeed : ∀ r c ch, r ≤ r0 →
      (layer0VFeed cfg p (inputTensor cfg imgX)).val r c ch
        = (layer0VFeed cfg p (inputTensor cfg imgY)).val r c ch := by
    intro r c ch hr
    exact feedVMap_causal r0 cfg.gated cfg.nbFilters (p.vFeed 0)
      (layer0VMasked cfg p (inputTensor cfg imgX))
      (layer0VMasked cfg p (inputTensor cfg imgY)) rfl rfl rfl
      (fun r c ch _ _ _ h4 => hvm r c ch h4) r c ch hr
  have hhm : ∀ r c ch, notAfter r c r0 c0 →
      (layer0HMasked cfg p (inputTensor cfg imgX)).val r c ch
        = (layer0HMasked cfg p (inputTensor cfg imgY)).val r c ch := by
    intro r c ch hna
    refine maskedConvHA_causal r0 c0 (myNbF cfg) cfg.fs1 (p.hConv 0)
      (inputTensor cfg imgX) (inputTensor cfg imgY) rfl rfl rfl ?_ r c ch hna
    intro r c ch h1 h2 h3 hna'
    exact hagree r c ch h1 h2 h3 hna'
  have hhOut : ∀ r c ch, notAfter r c r0 c0 →
      (layer0HStack cfg p (inputTensor cfg imgX) lat).val r c ch
        = (layer0HStack cfg p (inputTensor cfg imgY) lat).val r c ch := by
    intro r c ch hna
    refine conv1x1_causal (fun r' c' => notAfter r' c' r0 c0) cfg.nbFilters
      (p.h1x1 0)
      (activationUnit p cfg.gated cfg.nbFilters
        (some (layer0VFeed cfg p (inputTensor cfg imgX))) lat cfg.latentDim
        (p.hDense 0) true (layer0HMasked cfg p (inputTensor cfg imgX)))
      (activationUnit p cfg.gated cfg.nbFilters
        (some (layer0VFeed cfg p (inputTensor cfg imgY))) lat cfg.latentDim
        (p.hDense 0) true (layer0HMasked cfg p (inputTensor cfg imgY)))
      ?_ ?_ r c ch hna
    · rw [activationUnit_C, activationUnit_C]
      simp [layer0HMasked, maskedConvHA]
    · intro r c ch hna'
      refine activationUnit_causal (fun r' c' => notAfter r' c' r0 c0) p
        cfg.gated cfg.nbFilters cfg.latentDim (p.hDense 0) true lat
        (some (layer0VFeed cfg p (inputTensor cfg imgX)))
        (some (layer0VFeed cfg p (inputTensor cfg imgY)))
        (layer0HMasked cfg p (inputTensor cfg imgX))
        (layer0HMasked cfg p (inputTensor cfg imgY))
        ?_ hhm r c ch hna'
      intro r c ch hna2
      have hrle : r ≤ r0 := by rcases hna2 with h1 | ⟨h1, _⟩ <;> omega
      exact hfeed r c ch hrle
  refine ⟨?_, ?_, ?_, ?_⟩
  · exact dimsEq_activationUnit _ _ _ _ _ _ _ _ _ ⟨rfl, rfl, rfl⟩
  · refine dimsEq_conv2dValid _ _ _ _ _ ?_
    exact dimsEq_activationUnit _ _ _ _ _ _ _ _ _ ⟨rfl, rfl, rfl⟩
  · intro r c ch hr
    exact hvOut r c ch hr
  · intro r c ch hna
    exact hhOut r c ch hna

/-- Causality through `_build_layers` at the target position. -/
lemma buildLayers_causal (cfg : Config) (p : Params) (lat : Option (ℕ → ℚ))
    (r0 c0 : ℕ) (imgX imgY : ℕ → ℕ → ℕ → ℚ)
    (hagree : ∀ r c ch, r < cfg.inputH → c < cfg.inputW →
      ch < cfg.nbChannels → notAfter r c r0 c0 → imgX r c ch = imgY r c ch) :
    ∀ ch, (buildLayers cfg p (inputTensor cfg imgX) lat).val r0 c0 ch
      = (buildLayers cfg p (inputTensor cfg imgY) lat).val r0 c0 ch := by
  intro ch
  have h0 := layer0_inv cfg p lat r0 c0 imgX imgY hagree
  have hN := loopFrom_inv cfg p lat r0 c0 (cfg.nbLayers - 1) 1 _ _ h0
  exact headOut_causal (fun r' c' => notAfter r' c' r0 c0) cfg p _ _
    hN.2.1.2.2 (fun r c ch hna => hN.2.2.2 r c ch hna) r0 c0 ch
    (Or.inr ⟨rfl, le_refl c0⟩)

/-- Claim C1: causality.  For every configuration (any layer count, gated
or ReLU, conditional or unconditional), any weights, and every target
position `(r0, c0)`: if two input images agree at every in-range position
not strictly after `(r0, c0)` in raster order, the built graph's output
at `(r0, c0)` is identical for both inputs (all channels). -/
theorem c1_causality (cfg : Config) (p : Params) (r0 c0 : ℕ)
    (imgX imgY : ℕ → ℕ → ℕ → ℚ) (lat : ℕ → ℚ) (ch : ℕ)
    (hagree : ∀ r c k, r < cfg.inputH → c < cfg.inputW →
      k < cfg.nbChannels → notAfter r c r0 c0 → imgX r c k = imgY r c k) :
    (buildModel cfg p imgX lat).val r0 c0 ch
      = (buildModel cfg p imgY lat).val r0 c0 ch := by
  cases hc : cfg.conditional <;> simp only [buildModel, hc] <;>
    simp only [Bool.false_eq_true, if_true, if_false, ite_true, ite_false,
      reduceIte]
  · exact buildLayers_causal cfg p none r0 c0 imgX imgY hagree ch
  · exact buildLayers_causal cfg p (some lat) r0 c0 imgX imgY hagree ch

/-- Witness for C1: on the 1×2 model `cfgW1`, the images `imgA` and
`imgB` differ only at column 1, which is strictly after the target
`(0, 0)`, and the outputs at `(0, 0)` coincide. -/
theorem c1_witness :
    (buildModel cfgW1 pOne imgA latZero).val 0 0 0
      = (buildModel cfgW1 pOne imgB latZero).val 0 0 0 := by
  refine c1_causality cfgW1 pOne 0 0 imgA imgB latZero 0 ?_
  intro r c k hr hc hk hna
  have hc0 : c = 0 := by
    rcases hna with h1 | ⟨h1, h2⟩
    · omega
    · omega
  subst hc0
  rfl

end BlockVae

namespace BlockVae

/-! ## Shape preservation (Claim C7) -/

/-- One loop layer preserves the `(H, W, nbFilters)` dimensions of both
stacks when the loop kernel has odd width. -/
lemma layerStep_dims (cfg : Config) (p : Params) (lat : Option (ℕ → ℚ))
    (u v i : ℕ) (hfs : cfg.fs = (2 * u + 1, 2 * v + 1))
    (st : Tensor × Tensor) (H W : ℕ)
    (h1H : st.1.H = H) (h1W : st.1.W = W) (h1C : st.1.C = cfg.nbFilters)
    (h2H : st.2.H = H) (h2W : st.2.W = W) (h2C : st.2.C = cfg.nbFilters) :
    (layerStep cfg p lat i st).1.H = H ∧ (layerStep cfg p lat i st).1.W = W ∧
    (layerStep cfg p lat i st).1.C = cfg.nbFilters ∧
    (layerStep cfg p lat i st).2.H = H ∧ (layerStep cfg p lat i st).2.W = W ∧
    (layerStep cfg p lat i st).2.C = cfg.nbFilters := by
  have hfs1 : cfg.fs.1 = 2 * u + 1 := by rw [hfs]
  have hfs2 : cfg.fs.2 = 2 * v + 1 := by rw [hfs]
  refine ⟨?_, ?_, ?_, ?_, ?_, ?_⟩ <;>
    cases hg : cfg.gated <;>
      simp [layerStep, stepVStack, stepVMasked, stepHProj, stepHMasked,
        maskedConvV, maskedConvHB, activationUnit_H, activationUnit_W,
        activationUnit_C, myNbF, hg, hfs1, hfs2, h1H, h1W, h1C, h2H, h2W,
        h2C] <;>
      omega

/-- The whole residual loop preserves the horizontal stack's
`(H, W, nbFilters)` dimensions. -/
lemma loopFrom_dims (cfg : Config) (p : Params) (lat : Option (ℕ → ℚ))
    (u v : ℕ) (hfs : cfg.fs = (2 * u + 1, 2 * v + 1)) (H W : ℕ) :
    ∀ k i st, st.1.H = H → st.1.W = W → st.1.C = cfg.nbFilters →
      st.2.H = H → st.2.W = W → st.2.C = cfg.nbFilters →
      (loopFrom cfg p lat i k st).2.H = H ∧
      (loopFrom cfg p lat i k st).2.W = W ∧
      (loopFrom cfg p lat i k st).2.C = cfg.nbFilters := by
  intro k
  induction k with
  | zero => exact fun i st _ _ _ h4 h5 h6 => ⟨h4, h5, h6⟩
  | succ n ih =>
    intro i st h1 h2 h3 h4 h5 h6
    obtain ⟨s1, s2, s3, s4, s5, s6⟩ :=
      layerStep_dims cfg p lat u v i hfs st H W h1 h2 h3 h4 h5 h6
    exact ih (i + 1) _ s1 s2 s3 s4 s5 s6

/-- Layer 0 maps the `(inputH, inputW, C)` input to `(inputH, inputW,
nbFilters)` on both stacks when the first-layer kernel is odd. -/
lemma layer0_dims (cfg : Config) (p : Params) (lat : Option (ℕ → ℚ))
    (img : ℕ → ℕ → ℕ → ℚ) (a b : ℕ)
    (hfs1 : cfg.fs1 = (2 * a + 1, 2 * b + 1)) :
    (layer0VStack cfg p (inputTensor cfg img) lat).H = cfg.inputH ∧
    (layer0VStack cfg p (inputTensor cfg img) lat).W = cfg.inputW ∧
    (layer0VStack cfg p (inputTensor cfg img) lat).C = cfg.nbFilters ∧
    (layer0HStack cfg p (inputTensor cfg img) lat).H = cfg.inputH ∧
    (layer0HStack cfg p (inputTensor cfg img) lat).W = cfg.inputW ∧
    (layer0HStack cfg p (inputTensor cfg img) lat).C = cfg.nbFilters := by
  have h1 : cfg.fs1.1 = 2 * a + 1 := by rw [hfs1]
  have h2 : cfg.fs1.2 = 2 * b + 1 := by rw [hfs1]
  refine ⟨?_, ?_, ?_, ?_, ?_, ?_⟩ <;>
    cases hg : cfg.gated <;>
      simp [layer0VStack, layer0VMasked, layer0HStack, layer0HMasked,
        maskedConvV, maskedConvHA, activationUnit_H, activationUnit_W,
        activationUnit_C, myNbF, inputTensor, hg, h1, h2] <;>
      omega

/-- `_build_layers` preserves the spatial dimensions and projects to
`nbChannels` output channels, for odd kernel sizes. -/
lemma buildLayers_dims (cfg : Config) (p : Params) (lat : Option (ℕ → ℚ))
    (img : ℕ → ℕ → ℕ → ℚ) (a b u v : ℕ)
    (hfs1 : cfg.fs1 = (2 * a + 1, 2 * b + 1))
    (hfs : cfg.fs = (2 * u + 1, 2 * v + 1)) :
    (buildLayers cfg p (inputTensor cfg img) lat).H = cfg.inputH ∧
    (buildLayers cfg p (inputTensor cfg img) lat).W = cfg.inputW ∧
    (buildLayers cfg p (inputTensor cfg img) lat).C = cfg.nbChannels := by
  obtain ⟨a1, a2, a3, a4, a5, a6⟩ := layer0_dims cfg p lat img a b hfs1
  obtain ⟨b1, b2, b3⟩ := loopFrom_dims cfg p lat u v hfs cfg.inputH
    cfg.inputW (cfg.nbLayers - 1) 1
    (layer0VStack cfg p (inputTensor cfg img) lat,
     layer0HStack cfg p (inputTensor cfg img) lat) a1 a2 a3 a4 a5 a6
  refine ⟨?_, ?_, ?_⟩ <;> simp [buildLayers, headOut, b1, b2, b3]

/-- Claim C7: shape preservation.  For every odd kernel configuration the
built graph's output has the input's spatial dimensions and the image's
channel count, and the first-layer horizontal map after crop-right has
the same width as the vertical feed map (both equal the input width). -/
theorem c7_shape_preservation (cfg : Config) (p : Params)
    (img : ℕ → ℕ → ℕ → ℚ) (lat : ℕ → ℚ) (a b u v : ℕ)
    (hfs1 : cfg.fs1 = (2 * a + 1, 2 * b + 1))
    (hfs : cfg.fs = (2 * u + 1, 2 * v + 1)) :
    (buildModel cfg p img lat).H = cfg.inputH ∧
    (buildModel cfg p img lat).W = cfg.inputW ∧
    (buildModel cfg p img lat).C = cfg.nbChannels ∧
    (cropRightT (layer0HMasked cfg p (inputTensor cfg img))).W
      = (layer0VFeed cfg p (inputTensor cfg img)).W ∧
    (layer0VFeed cfg p (inputTensor cfg img)).W = cfg.inputW := by
  have hb := buildLayers_dims cfg p (some lat) img a b u v hfs1 hfs
  have hb' := buildLayers_dims cfg p none img a b u v hfs1 hfs
  have h2 : cfg.fs1.2 = 2 * b + 1 := by rw [hfs1]
  have hcrop : (cropRightT (layer0HMasked cfg p (inputTensor cfg img))).W
      = cfg.inputW := by
    simp [cropRightT_W, layer0HMasked, maskedConvHA, inputTensor, h2]
    omega
  have hfeedW : (layer0VFeed cfg p (inputTensor cfg img)).W = cfg.inputW := by
    simp [layer0VFeed, feedVMap, layer0VMasked, maskedConvV, inputTensor, h2]
    omega
  refine ⟨?_, ?_, ?_, ?_, hfeedW⟩
  · cases hc : cfg.conditional <;> simp [buildModel, hc, hb.1, hb'.1]
  · cases hc : cfg.conditional <;> simp [buildModel, hc, hb.2.1, hb'.2.1]
  · cases hc : cfg.conditional <;> simp [buildModel, hc, hb.2.2, hb'.2.2]
  · rw [hcrop, hfeedW]

/-- Witness for C7 on the concrete 2×3 two-layer conditional gated model
`cfg7` with 7×7 and 3×3 kernels. -/
theorem c7_witness :
    (buildModel cfg7 pOne imgA latZero).H = 2 ∧
    (buildModel cfg7 pOne imgA latZero).W = 3 ∧
    (buildModel cfg7 pOne imgA latZero).C = 1 := by
  have h := c7_shape_preservation cfg7 pOne imgA latZero 3 3 1 1 rfl rfl
  exact ⟨h.1, h.2.1, h.2.2.1⟩

end BlockVae
